import Mathlib

/-
Verification of the WebGL textured-lit-model shaders.

The two GLSL shaders (vertex stage and fragment stage) are embedded
shallowly over the real numbers: GLSL `float` becomes `ℝ`, `vec2/vec3/vec4`
become record types of reals, GLSL componentwise `*` on vectors becomes a
`Mul` instance, `vecN * float` becomes scalar multiplication, and the GLSL
builtins `dot`, `cross`, `length`, `distance`, `normalize`, `reflect`,
`pow`, `max`, `transpose` are given their specified real-number semantics.
Texture fetches (`texture(sampler, uv)`) are modelled as function fields of
the `Material` record: a sampler is an arbitrary function from texture
coordinates to an rgb triple.
-/

noncomputable section

namespace Shader

/-- GLSL `vec2`, modelled over the reals. -/
@[ext] structure Vec2 where
  x : ℝ
  y : ℝ

/-- GLSL `vec3`, modelled over the reals. -/
@[ext] structure Vec3 where
  x : ℝ
  y : ℝ
  z : ℝ

/-- GLSL `vec4`, modelled over the reals. -/
@[ext] structure Vec4 where
  x : ℝ
  y : ℝ
  z : ℝ
  w : ℝ

instance : Zero Vec3 := ⟨⟨0, 0, 0⟩⟩

instance : Add Vec3 := ⟨fun a b => ⟨a.x + b.x, a.y + b.y, a.z + b.z⟩⟩

instance : Neg Vec3 := ⟨fun a => ⟨-a.x, -a.y, -a.z⟩⟩

instance : Sub Vec3 := ⟨fun a b => ⟨a.x - b.x, a.y - b.y, a.z - b.z⟩⟩

/-- GLSL componentwise product of two vectors (Hadamard product). -/
instance : Mul Vec3 := ⟨fun a b => ⟨a.x * b.x, a.y * b.y, a.z * b.z⟩⟩

/-- GLSL product of a scalar and a vector. -/
instance : SMul ℝ Vec3 := ⟨fun r a => ⟨r * a.x, r * a.y, r * a.z⟩⟩

@[simp] theorem Vec3.zero_x : (0 : Vec3).x = 0 := rfl
@[simp] theorem Vec3.zero_y : (0 : Vec3).y = 0 := rfl
@[simp] theorem Vec3.zero_z : (0 : Vec3).z = 0 := rfl
@[simp] theorem Vec3.add_x (a b : Vec3) : (a + b).x = a.x + b.x := rfl
@[simp] theorem Vec3.add_y (a b : Vec3) : (a + b).y = a.y + b.y := rfl
@[simp] theorem Vec3.add_z (a b : Vec3) : (a + b).z = a.z + b.z := rfl
@[simp] theorem Vec3.neg_x (a : Vec3) : (-a).x = -a.x := rfl
@[simp] theorem Vec3.neg_y (a : Vec3) : (-a).y = -a.y := rfl
@[simp] theorem Vec3.neg_z (a : Vec3) : (-a).z = -a.z := rfl
@[simp] theorem Vec3.sub_x (a b : Vec3) : (a - b).x = a.x - b.x := rfl
@[simp] theorem Vec3.sub_y (a b : Vec3) : (a - b).y = a.y - b.y := rfl
@[simp] theorem Vec3.sub_z (a b : Vec3) : (a - b).z = a.z - b.z := rfl
@[simp] theorem Vec3.mul_x (a b : Vec3) : (a * b).x = a.x * b.x := rfl
@[simp] theorem Vec3.mul_y (a b : Vec3) : (a * b).y = a.y * b.y := rfl
@[simp] theorem Vec3.mul_z (a b : Vec3) : (a * b).z = a.z * b.z := rfl
@[simp] theorem Vec3.smul_x (r : ℝ) (a : Vec3) : (r • a).x = r * a.x := rfl
@[simp] theorem Vec3.smul_y (r : ℝ) (a : Vec3) : (r • a).y = r * a.y := rfl
@[simp] theorem Vec3.smul_z (r : ℝ) (a : Vec3) : (r • a).z = r * a.z := rfl

instance : Zero Vec4 := ⟨⟨0, 0, 0, 0⟩⟩

instance : Add Vec4 := ⟨fun a b => ⟨a.x + b.x, a.y + b.y, a.z + b.z, a.w + b.w⟩⟩

instance : SMul ℝ Vec4 := ⟨fun r a => ⟨r * a.x, r * a.y, r * a.z, r * a.w⟩⟩

@[simp] theorem Vec4.zero_x4 : (0 : Vec4).x = 0 := rfl
@[simp] theorem Vec4.zero_y4 : (0 : Vec4).y = 0 := rfl
@[simp] theorem Vec4.zero_z4 : (0 : Vec4).z = 0 := rfl
@[simp] theorem Vec4.zero_w4 : (0 : Vec4).w = 0 := rfl
@[simp] theorem Vec4.add_x4 (a b : Vec4) : (a + b).x = a.x + b.x := rfl
@[simp] theorem Vec4.add_y4 (a b : Vec4) : (a + b).y = a.y + b.y := rfl
@[simp] theorem Vec4.add_z4 (a b : Vec4) : (a + b).z = a.z + b.z := rfl
@[simp] theorem Vec4.add_w4 (a b : Vec4) : (a + b).w = a.w + b.w := rfl
@[simp] theorem Vec4.smul_x4 (r : ℝ) (a : Vec4) : (r • a).x = r * a.x := rfl
@[simp] theorem Vec4.smul_y4 (r : ℝ) (a : Vec4) : (r • a).y = r * a.y := rfl
@[simp] theorem Vec4.smul_z4 (r : ℝ) (a : Vec4) : (r • a).z = r * a.z := rfl
@[simp] theorem Vec4.smul_w4 (r : ℝ) (a : Vec4) : (r • a).w = r * a.w := rfl

/-- GLSL `dot` on `vec3`. -/
def dot (a b : Vec3) : ℝ := a.x * b.x + a.y * b.y + a.z * b.z

/-- GLSL `dot` on `vec4`. -/
def dot4 (a b : Vec4) : ℝ := a.x * b.x + a.y * b.y + a.z * b.z + a.w * b.w

/-- GLSL `cross`. -/
def cross (a b : Vec3) : Vec3 :=
  ⟨a.y * b.z - a.z * b.y, a.z * b.x - a.x * b.z, a.x * b.y - a.y * b.x⟩

/-- GLSL `length` on `vec3`. -/
def length (v : Vec3) : ℝ := Real.sqrt (dot v v)

/-- GLSL `length` on `vec4`. -/
def length4 (v : Vec4) : ℝ := Real.sqrt (dot4 v v)

/-- GLSL `normalize` on `vec3`: the vector divided by its length. -/
def normalize (v : Vec3) : Vec3 := (length v)⁻¹ • v

/-- GLSL `normalize` on `vec4`. -/
def normalize4 (v : Vec4) : Vec4 := (length4 v)⁻¹ • v

/-- GLSL `distance`: the length of the difference. -/
def distance (a b : Vec3) : ℝ := length (a - b)

/-- GLSL `reflect(I, N) = I - 2 * dot(N, I) * N`. -/
def reflect (i n : Vec3) : Vec3 := i - (2 * dot n i) • n

/-- The `.xyz` swizzle of a `vec4`. -/
def Vec4.xyz (v : Vec4) : Vec3 := ⟨v.x, v.y, v.z⟩

/-- The GLSL constructor `vec4(v, w)` for a `vec3` and a scalar. -/
def vec4 (v : Vec3) (w : ℝ) : Vec4 := ⟨v.x, v.y, v.z, w⟩

/-- GLSL `mat3`, stored as its three columns (GLSL is column-major, and
`mat3(a, b, c)` makes `a`, `b`, `c` the columns). -/
@[ext] structure Mat3 where
  c0 : Vec3
  c1 : Vec3
  c2 : Vec3

/-- Matrix-vector product: a linear combination of the columns. -/
def Mat3.mulVec (m : Mat3) (v : Vec3) : Vec3 :=
  v.x • m.c0 + v.y • m.c1 + v.z • m.c2

/-- GLSL `transpose` on `mat3`. -/
def Mat3.transpose (m : Mat3) : Mat3 :=
  ⟨⟨m.c0.x, m.c1.x, m.c2.x⟩, ⟨m.c0.y, m.c1.y, m.c2.y⟩, ⟨m.c0.z, m.c1.z, m.c2.z⟩⟩

/-- GLSL `mat4x4`, stored as its four columns. -/
@[ext] structure Mat4 where
  c0 : Vec4
  c1 : Vec4
  c2 : Vec4
  c3 : Vec4

/-- Matrix-vector product: a linear combination of the columns. -/
def Mat4.mulVec (m : Mat4) (v : Vec4) : Vec4 :=
  v.x • m.c0 + v.y • m.c1 + v.z • m.c2 + v.w • m.c3

/-- Matrix-matrix product (columns of the product are `a` applied to the
columns of `b`). -/
def Mat4.comp (a b : Mat4) : Mat4 :=
  ⟨a.mulVec b.c0, a.mulVec b.c1, a.mulVec b.c2, a.mulVec b.c3⟩

/-- The 4x4 identity matrix. -/
def mat4id : Mat4 :=
  ⟨⟨1, 0, 0, 0⟩, ⟨0, 1, 0, 0⟩, ⟨0, 0, 1, 0⟩, ⟨0, 0, 0, 1⟩⟩

/-- Fragment shader struct `AmbientLight`. -/
structure AmbientLight where
  color : Vec3
  intensity : ℝ

/-- Fragment shader struct `DirectionalLight`. -/
structure DirectionalLight where
  direction : Vec3
  color : Vec3
  intensity : ℝ

/-- Fragment shader struct `PointLight`. -/
structure PointLight where
  position : Vec3
  color : Vec3
  intensity : ℝ

/-- Fragment shader struct `Material`.  The three `sampler2D` fields are
modelled as arbitrary functions from texture coordinates to the rgb triple
returned by `texture(sampler, uv).rgb`. -/
structure Material where
  kA : Vec3
  kD : Vec3
  kS : Vec3
  shininess : ℝ
  map_kD : Vec2 → Vec3
  map_nS : Vec2 → Vec3
  map_norm : Vec2 → Vec3

/-- The `MAX_LIGHTS` constant of the fragment shader. -/
def MAX_LIGHTS : ℕ := 16

/-- Function `shadeAmbientLight` of the fragment shader, translated line by line:
if the intensity is 0 return `vec3(0)`, otherwise return
`light.color * light.intensity * material.kA * texture(material.map_kD, tex_coords).rgb`. -/
def shadeAmbientLight (material : Material) (light : AmbientLight)
    (tex_coords : Vec2) : Vec3 :=
  if light.intensity = 0 then 0
  else (light.intensity • light.color) * material.kA * material.map_kD tex_coords

/-- Function `shadeDirectionalLight` of the fragment shader, translated line by line. -/
def shadeDirectionalLight (material : Material) (light : DirectionalLight)
    (normal eye vertex_position : Vec3) (tex_coords : Vec2) : Vec3 :=
  if light.intensity = 0 then 0
  else
    let N := normalize normal
    let L := -normalize light.direction
    let V := normalize (vertex_position - eye)
    let LN := max (dot L N) 0
    let diffuse :=
      (light.intensity • (LN • light.color)) * material.kD * material.map_kD tex_coords
    let R := reflect L N
    let specular :=
      (light.intensity •
        (Real.rpow (max (dot R V) 0)
          (material.shininess * (material.map_nS tex_coords).x) • light.color)) *
        material.kS
    0 + diffuse + specular

/-- Function `shadePointLight` of the fragment shader, translated line by line. -/
def shadePointLight (material : Material) (light : PointLight)
    (normal eye vertex_position : Vec3) (tex_coords : Vec2) : Vec3 :=
  if light.intensity = 0 then 0
  else
    let N := normalize normal
    let D := distance light.position vertex_position
    let L := normalize (light.position - vertex_position)
    let V := normalize (vertex_position - eye)
    let LN := max (dot L N) 0
    let diffuse :=
      (light.intensity • (LN • light.color)) * material.kD * material.map_kD tex_coords
    let R := reflect L N
    let specular :=
      (light.intensity •
        (Real.rpow (max (dot R V) 0)
          (material.shininess * (material.map_nS tex_coords).x) • light.color)) *
        material.kS
    (1 / (D * D + 1)) • (0 + diffuse + specular)

/-- The world-space normal computed at the top of the fragment shader `main`:
sample the normal map, decode `[0,1] → [-1,1]` by `n * 2.0 - 1.0`, normalize,
multiply by the interpolated `tbn` matrix, and normalize again. -/
def fragmentNormal (material : Material) (tbn : Mat3) (tex_coords : Vec2) : Vec3 :=
  normalize (tbn.mulVec (normalize ((2 : ℝ) • material.map_norm tex_coords - ⟨1, 1, 1⟩)))

/-- Function `main` of the fragment shader.  The `in` variables
(`o_vertex_position_world`, `tbn`, `tex_coords`) and the uniforms are
parameters; the result is the value written to `o_fragColor`. -/
def fragmentMain (u_show_normals : Bool) (u_material : Material)
    (u_lights_ambient : Fin MAX_LIGHTS → AmbientLight)
    (u_lights_directional : Fin MAX_LIGHTS → DirectionalLight)
    (u_lights_point : Fin MAX_LIGHTS → PointLight)
    (u_eye o_vertex_position_world : Vec3) (tbn : Mat3) (tex_coords : Vec2) : Vec4 :=
  let normal := fragmentNormal u_material tbn tex_coords
  if u_show_normals then vec4 normal 1
  else
    let light_contribution :=
      (List.finRange MAX_LIGHTS).foldl
        (fun acc i =>
          acc + shadeAmbientLight u_material (u_lights_ambient i) tex_coords
              + shadeDirectionalLight u_material (u_lights_directional i) normal
                  u_eye o_vertex_position_world tex_coords
              + shadePointLight u_material (u_lights_point i) normal
                  u_eye o_vertex_position_world tex_coords)
        0
    vec4 light_contribution 1

/-- The Gram-Schmidt step of the vertex shader:
`T = normalize(T - dot(T, N) * N)`. -/
def gramSchmidt (T N : Vec3) : Vec3 := normalize (T - dot T N • N)

/-- The four `out` values of the vertex shader. -/
structure VertexOut where
  gl_Position : Vec4
  o_vertex_position_world : Vec3
  tbn : Mat3
  tex_coords : Vec2

/-- Function `main` of the vertex shader, translated line by line.  Note that the
source normalizes the full model-transformed 4-vector (with `w = 0`) and
takes `.xyz` afterwards, and that `mat3(T, B, N)` makes `T`, `B`, `N` the
columns of the matrix, which `transpose` then turns into its rows. -/
def vertexMain (u_m u_v u_p : Mat4) (a_position a_normal a_tangent : Vec3)
    (a_texture_coord : Vec2) : VertexOut :=
  let vertex_position_world := u_m.mulVec (vec4 a_position 1)
  let T := (normalize4 (u_m.mulVec (vec4 a_tangent 0))).xyz
  let N := (normalize4 (u_m.mulVec (vec4 a_normal 0))).xyz
  let T2 := gramSchmidt T N
  let B := cross N T2
  { gl_Position := u_p.mulVec (u_v.mulVec vertex_position_world)
    o_vertex_position_world := vertex_position_world.xyz
    tbn := (Mat3.mk T2 B N).transpose
    tex_coords := a_texture_coord }

/-! Helper lemmas about the vector algebra. -/

theorem Vec3.add_zero (a : Vec3) : a + 0 = a := by ext <;> simp

theorem Vec3.zero_add (a : Vec3) : 0 + a = a := by ext <;> simp

theorem Vec3.add_assoc (a b c : Vec3) : a + b + c = a + (b + c) := by
  ext <;> simp <;> ring

/-- Folding vector addition over a list, starting from `init`, is `init`
plus the sum of the list of images. -/
theorem foldl_add_eq_sum {α : Type} (f : α → Vec3) :
    ∀ (l : List α) (init : Vec3),
      l.foldl (fun acc i => acc + f i) init = init + (l.map f).sum := by
  intro l
  induction l with
  | nil => intro init; simpa using (Vec3.add_zero init).symm
  | cons a l ih =>
      intro init
      rw [List.foldl_cons, ih, List.map_cons]
      show init + f a + (List.map f l).sum = init + (f a + (List.map f l).sum)
      exact Vec3.add_assoc _ _ _

theorem dot_sub_left (a b c : Vec3) : dot (a - b) c = dot a c - dot b c := by
  simp only [dot, Vec3.sub_x, Vec3.sub_y, Vec3.sub_z]
  ring

theorem dot_smul_left (r : ℝ) (a b : Vec3) : dot (r • a) b = r * dot a b := by
  simp only [dot, Vec3.smul_x, Vec3.smul_y, Vec3.smul_z]
  ring

/-- The dot product of a normalized vector with another vector. -/
theorem dot_normalize_left (v w : Vec3) :
    dot (normalize v) w = (length v)⁻¹ * dot v w := by
  rw [normalize, dot_smul_left]

/-- Matrix product agrees with composition of the matrix-vector actions. -/
theorem Mat4.comp_mulVec (a b : Mat4) (v : Vec4) :
    (a.comp b).mulVec v = a.mulVec (b.mulVec v) := by
  ext <;> simp [Mat4.comp, Mat4.mulVec] <;> ring

/-- Orthonormality of a frame of three vectors. -/
def orthonormalFrame (T B N : Vec3) : Prop :=
  dot T T = 1 ∧ dot B B = 1 ∧ dot N N = 1 ∧
  dot T B = 0 ∧ dot T N = 0 ∧ dot B N = 0

/-- A constant texture: every fetch returns the same rgb triple.  Used to
instantiate the sampler fields of `Material` at concrete inputs. -/
def constSampler (v : Vec3) : Vec2 → Vec3 := fun _ => v

/-- A concrete material used to instantiate theorems at explicit inputs. -/
def sampleMaterial : Material :=
  ⟨⟨1, 1, 1⟩, ⟨1, 1, 1⟩, ⟨1, 1, 1⟩, 2,
   constSampler ⟨1, 1, 1⟩, constSampler ⟨1, 1, 1⟩, constSampler ⟨1/2, 1/2, 1⟩⟩

/-- C2: for every light of any of the three kinds whose intensity equals
exactly 0, the corresponding shading function returns exactly the zero
vector, regardless of every other field of the light (including malformed
direction or position) and regardless of the material, normal, eye, or
fragment position. -/
theorem shade_intensity_zero (material : Material)
    (la : AmbientLight) (ld : DirectionalLight) (lp : PointLight)
    (normal eye vertex_position : Vec3) (tex_coords : Vec2)
    (ha : la.intensity = 0) (hd : ld.intensity = 0) (hp : lp.intensity = 0) :
    shadeAmbientLight material la tex_coords = 0 ∧
    shadeDirectionalLight material ld normal eye vertex_position tex_coords = 0 ∧
    shadePointLight material lp normal eye vertex_position tex_coords = 0 := by
  refine ⟨?_, ?_, ?_⟩ <;>
    simp [shadeAmbientLight, shadeDirectionalLight, shadePointLight, ha, hd, hp]

/-- C2 witness: concrete zero-intensity lights with malformed (zero)
direction and position contribute the zero vector. -/
theorem shade_intensity_zero_witness :
    (⟨⟨5, 5, 5⟩, 0⟩ : AmbientLight).intensity = 0 ∧
    shadeAmbientLight sampleMaterial ⟨⟨5, 5, 5⟩, 0⟩ ⟨0, 0⟩ = 0 ∧
    shadeDirectionalLight sampleMaterial ⟨⟨0, 0, 0⟩, ⟨5, 5, 5⟩, 0⟩
      ⟨0, 0, 1⟩ ⟨0, 0, 0⟩ ⟨1, 2, 3⟩ ⟨0, 0⟩ = 0 ∧
    shadePointLight sampleMaterial ⟨⟨0, 0, 0⟩, ⟨5, 5, 5⟩, 0⟩
      ⟨0, 0, 1⟩ ⟨0, 0, 0⟩ ⟨1, 2, 3⟩ ⟨0, 0⟩ = 0 := by
  have h := shade_intensity_zero sampleMaterial ⟨⟨5, 5, 5⟩, 0⟩
    ⟨⟨0, 0, 0⟩, ⟨5, 5, 5⟩, 0⟩ ⟨⟨0, 0, 0⟩, ⟨5, 5, 5⟩, 0⟩
    ⟨0, 0, 1⟩ ⟨0, 0, 0⟩ ⟨1, 2, 3⟩ ⟨0, 0⟩ rfl rfl rfl
  exact ⟨rfl, h.1, h.2.1, h.2.2⟩

/-- C10: if the (already normalized, hence unit-length) tangent `T` is
orthogonal to the normal `N`, the Gram-Schmidt step of the vertex shader
leaves it unchanged: `normalize (T - dot T N • N) = T`. -/
theorem gramSchmidt_orthogonal_id (T N : Vec3)
    (hTN : dot T N = 0) (hT : dot T T = 1) :
    gramSchmidt T N = T := by
  have h1 : T - dot T N • N = T := by ext <;> simp [hTN]
  rw [gramSchmidt, h1, normalize, length, hT, Real.sqrt_one, inv_one]
  ext <;> simp

/-- C10 witness: the Gram-Schmidt step fixes the concrete orthogonal unit
tangent (1,0,0) against the normal (0,1,0). -/
theorem gramSchmidt_orthogonal_id_witness :
    dot ⟨1, 0, 0⟩ ⟨0, 1, 0⟩ = 0 ∧ dot ⟨1, 0, 0⟩ ⟨1, 0, 0⟩ = 1 ∧
    gramSchmidt ⟨1, 0, 0⟩ ⟨0, 1, 0⟩ = ⟨1, 0, 0⟩ := by
  refine ⟨by norm_num [dot], by norm_num [dot], ?_⟩
  exact gramSchmidt_orthogonal_id ⟨1, 0, 0⟩ ⟨0, 1, 0⟩
    (by norm_num [dot]) (by norm_num [dot])

/-- The diffuse term in the words of the spec:
`max(L·N, 0) · color · intensity · material.kD · diffuseMapSample`. -/
def specDiffuse (material : Material) (color : Vec3) (intensity : ℝ)
    (L N : Vec3) (tex_coords : Vec2) : Vec3 :=
  (max (dot L N) 0 * intensity) • (color * material.kD * material.map_kD tex_coords)

/-- The specular term in the words of the spec:
`max(R·V, 0)^(shininess · specularMapSample.r) · color · intensity · material.kS`
with `R = reflect(L, N)`. -/
def specSpecular (material : Material) (color : Vec3) (intensity : ℝ)
    (L N V : Vec3) (tex_coords : Vec2) : Vec3 :=
  (Real.rpow (max (dot (reflect L N) V) 0)
      (material.shininess * (material.map_nS tex_coords).x) * intensity) •
    (color * material.kS)

/-- C4: for a directional light with nonzero intensity the shader negates
the given direction to obtain the incidence vector L and returns
diffuse + specular with the diffuse and specular terms of the spec,
`V = normalize(fragmentWorldPos - eye)`, and no attenuation factor; a
non-positive alignment `L·N` is clamped to exactly 0, leaving only the
specular term. -/
theorem shadeDirectionalLight_formula (material : Material)
    (light : DirectionalLight) (normal eye vertex_position : Vec3)
    (tex_coords : Vec2) (h : light.intensity ≠ 0) :
    shadeDirectionalLight material light normal eye vertex_position tex_coords =
      specDiffuse material light.color light.intensity
        (-normalize light.direction) (normalize normal) tex_coords +
      specSpecular material light.color light.intensity
        (-normalize light.direction) (normalize normal)
        (normalize (vertex_position - eye)) tex_coords ∧
    (dot (-normalize light.direction) (normalize normal) ≤ 0 →
      shadeDirectionalLight material light normal eye vertex_position tex_coords =
        specSpecular material light.color light.intensity
          (-normalize light.direction) (normalize normal)
          (normalize (vertex_position - eye)) tex_coords) := by
  constructor
  · simp only [shadeDirectionalLight, if_neg h, specDiffuse, specSpecular]
    ext <;> simp <;> ring
  · intro hneg
    simp only [shadeDirectionalLight, if_neg h, specSpecular]
    rw [max_eq_right hneg]
    ext <;> simp <;> ring

/-- C4 witness: the directional-light formula instantiated at a concrete
light of intensity 1 shining down the negative z axis. -/
theorem shadeDirectionalLight_formula_witness :
    (⟨⟨0, 0, -1⟩, ⟨1, 1, 1⟩, 1⟩ : DirectionalLight).intensity ≠ 0 ∧
    (shadeDirectionalLight sampleMaterial ⟨⟨0, 0, -1⟩, ⟨1, 1, 1⟩, 1⟩
        ⟨0, 0, 1⟩ ⟨0, 0, 10⟩ ⟨0, 0, 0⟩ ⟨0, 0⟩ =
      specDiffuse sampleMaterial ⟨1, 1, 1⟩ 1
        (-normalize ⟨0, 0, -1⟩) (normalize ⟨0, 0, 1⟩) ⟨0, 0⟩ +
      specSpecular sampleMaterial ⟨1, 1, 1⟩ 1
        (-normalize ⟨0, 0, -1⟩) (normalize ⟨0, 0, 1⟩)
        (normalize ((⟨0, 0, 0⟩ : Vec3) - ⟨0, 0, 10⟩)) ⟨0, 0⟩ ∧
    (dot (-normalize ⟨0, 0, -1⟩) (normalize ⟨0, 0, 1⟩) ≤ 0 →
      shadeDirectionalLight sampleMaterial ⟨⟨0, 0, -1⟩, ⟨1, 1, 1⟩, 1⟩
          ⟨0, 0, 1⟩ ⟨0, 0, 10⟩ ⟨0, 0, 0⟩ ⟨0, 0⟩ =
        specSpecular sampleMaterial ⟨1, 1, 1⟩ 1
          (-normalize ⟨0, 0, -1⟩) (normalize ⟨0, 0, 1⟩)
          (normalize ((⟨0, 0, 0⟩ : Vec3) - ⟨0, 0, 10⟩)) ⟨0, 0⟩)) :=
  ⟨by norm_num,
   shadeDirectionalLight_formula sampleMaterial ⟨⟨0, 0, -1⟩, ⟨1, 1, 1⟩, 1⟩
     ⟨0, 0, 1⟩ ⟨0, 0, 10⟩ ⟨0, 0, 0⟩ ⟨0, 0⟩ (by norm_num)⟩

/-- C3: for a point light with nonzero intensity the shader returns
`(diffuse + specular) * 1/(D*D + 1)` with `D = distance(lightPos, fragPos)`,
`L = normalize(lightPos - fragPos)`, `V = normalize(fragPos - eye)`, and the
diffuse and specular terms of the spec; the attenuation multiplies the
combined sum, and at distance 0 the attenuation factor evaluates to
exactly 1 (no division by zero). -/
theorem shadePointLight_formula (material : Material)
    (light : PointLight) (normal eye vertex_position : Vec3)
    (tex_coords : Vec2) (h : light.intensity ≠ 0) :
    shadePointLight material light normal eye vertex_position tex_coords =
      (1 / (distance light.position vertex_position *
            distance light.position vertex_position + 1)) •
        (specDiffuse material light.color light.intensity
            (normalize (light.position - vertex_position)) (normalize normal) tex_coords +
         specSpecular material light.color light.intensity
            (normalize (light.position - vertex_position)) (normalize normal)
            (normalize (vertex_position - eye)) tex_coords) ∧
    (light.position = vertex_position →
      distance light.position vertex_position = 0 ∧
      1 / (distance light.position vertex_position *
           distance light.position vertex_position + 1) = 1 ∧
      shadePointLight material light normal eye vertex_position tex_coords =
        specDiffuse material light.color light.intensity
            (normalize (light.position - vertex_position)) (normalize normal) tex_coords +
        specSpecular material light.color light.intensity
            (normalize (light.position - vertex_position)) (normalize normal)
            (normalize (vertex_position - eye)) tex_coords) := by
  have hmain : shadePointLight material light normal eye vertex_position tex_coords =
      (1 / (distance light.position vertex_position *
            distance light.position vertex_position + 1)) •
        (specDiffuse material light.color light.intensity
            (normalize (light.position - vertex_position)) (normalize normal) tex_coords +
         specSpecular material light.color light.intensity
            (normalize (light.position - vertex_position)) (normalize normal)
            (normalize (vertex_position - eye)) tex_coords) := by
    simp only [shadePointLight, if_neg h, specDiffuse, specSpecular]
    ext <;>
      simp only [Vec3.add_x, Vec3.add_y, Vec3.add_z, Vec3.mul_x, Vec3.mul_y,
        Vec3.mul_z, Vec3.smul_x, Vec3.smul_y, Vec3.smul_z, Vec3.zero_x,
        Vec3.zero_y, Vec3.zero_z] <;>
      ring
  refine ⟨hmain, fun he => ?_⟩
  have hD : distance light.position vertex_position = 0 := by
    subst he
    simp [distance, length, dot]
  refine ⟨hD, by rw [hD]; norm_num, ?_⟩
  rw [hmain, hD]
  norm_num
  ext <;> simp

/-- C3 witness: the point-light formula instantiated at the concrete
end-to-end scenario of the spec (light at (0,0,5), fragment at the origin,
eye at (0,0,10), intensity 1). -/
theorem shadePointLight_formula_witness :
    (⟨⟨0, 0, 5⟩, ⟨1, 1, 1⟩, 1⟩ : PointLight).intensity ≠ 0 ∧
    shadePointLight sampleMaterial ⟨⟨0, 0, 5⟩, ⟨1, 1, 1⟩, 1⟩
        ⟨0, 0, 1⟩ ⟨0, 0, 10⟩ ⟨0, 0, 0⟩ ⟨0, 0⟩ =
      (1 / (distance ⟨0, 0, 5⟩ ⟨0, 0, 0⟩ * distance ⟨0, 0, 5⟩ ⟨0, 0, 0⟩ + 1)) •
        (specDiffuse sampleMaterial ⟨1, 1, 1⟩ 1
            (normalize ((⟨0, 0, 5⟩ : Vec3) - ⟨0, 0, 0⟩)) (normalize ⟨0, 0, 1⟩) ⟨0, 0⟩ +
         specSpecular sampleMaterial ⟨1, 1, 1⟩ 1
            (normalize ((⟨0, 0, 5⟩ : Vec3) - ⟨0, 0, 0⟩)) (normalize ⟨0, 0, 1⟩)
            (normalize ((⟨0, 0, 0⟩ : Vec3) - ⟨0, 0, 10⟩)) ⟨0, 0⟩) :=
  ⟨by norm_num,
   (shadePointLight_formula sampleMaterial ⟨⟨0, 0, 5⟩, ⟨1, 1, 1⟩, 1⟩
     ⟨0, 0, 1⟩ ⟨0, 0, 10⟩ ⟨0, 0, 0⟩ ⟨0, 0⟩ (by norm_num)).1⟩

/-- C7: with the debug flag off, the fragment stage starts the accumulated
color at black and, for every index i in [0, MAX_LIGHTS) with
MAX_LIGHTS = 16, unconditionally adds the contributions of ambient[i],
directional[i] and point[i]; the output is vec4(sum, 1) — alpha is exactly
1 and no clamping or tone mapping is applied to the summed components. -/
theorem fragment_light_accumulation (u_material : Material)
    (amb : Fin MAX_LIGHTS → AmbientLight)
    (dir : Fin MAX_LIGHTS → DirectionalLight)
    (pt : Fin MAX_LIGHTS → PointLight)
    (u_eye pos : Vec3) (tbn : Mat3) (tc : Vec2) :
    MAX_LIGHTS = 16 ∧
    fragmentMain false u_material amb dir pt u_eye pos tbn tc =
      vec4 (((List.finRange MAX_LIGHTS).map (fun i =>
        shadeAmbientLight u_material (amb i) tc +
        shadeDirectionalLight u_material (dir i)
          (fragmentNormal u_material tbn tc) u_eye pos tc +
        shadePointLight u_material (pt i)
          (fragmentNormal u_material tbn tc) u_eye pos tc)).sum) 1 := by
  refine ⟨rfl, ?_⟩
  have hif : fragmentMain false u_material amb dir pt u_eye pos tbn tc =
      vec4 ((List.finRange MAX_LIGHTS).foldl
        (fun acc i =>
          acc + shadeAmbientLight u_material (amb i) tc
              + shadeDirectionalLight u_material (dir i)
                  (fragmentNormal u_material tbn tc) u_eye pos tc
              + shadePointLight u_material (pt i)
                  (fragmentNormal u_material tbn tc) u_eye pos tc)
        0) 1 := rfl
  have hfun : (fun (acc : Vec3) (i : Fin MAX_LIGHTS) =>
      acc + shadeAmbientLight u_material (amb i) tc
          + shadeDirectionalLight u_material (dir i)
              (fragmentNormal u_material tbn tc) u_eye pos tc
          + shadePointLight u_material (pt i)
              (fragmentNormal u_material tbn tc) u_eye pos tc) =
      fun acc i =>
        acc + (shadeAmbientLight u_material (amb i) tc +
               shadeDirectionalLight u_material (dir i)
                 (fragmentNormal u_material tbn tc) u_eye pos tc +
               shadePointLight u_material (pt i)
                 (fragmentNormal u_material tbn tc) u_eye pos tc) := by
    funext acc i
    simp only [Vec3.add_assoc]
  rw [hif, hfun, foldl_add_eq_sum, Vec3.zero_add]

/-- C5: an ambient light with nonzero intensity contributes exactly
`color · intensity · kA · diffuseMapSample`; consequently, in an
ambient-only scene (every directional and point light has intensity
exactly 0, debug flag off) the output is the sum over i of
`color_i · intensity_i · kA · diffuseSample` with alpha 1, and the output
does not depend on the normal map, the TBN matrix, the eye position, or
the world position of the fragment. -/
theorem ambient_only_scene (u_material : Material) (la : AmbientLight)
    (amb : Fin MAX_LIGHTS → AmbientLight)
    (dir : Fin MAX_LIGHTS → DirectionalLight)
    (pt : Fin MAX_LIGHTS → PointLight)
    (u_eye pos : Vec3) (tbn : Mat3) (tc : Vec2)
    (hla : la.intensity ≠ 0)
    (hdir : ∀ i, (dir i).intensity = 0) (hpt : ∀ i, (pt i).intensity = 0) :
    shadeAmbientLight u_material la tc =
      (la.intensity • la.color) * u_material.kA * u_material.map_kD tc ∧
    fragmentMain false u_material amb dir pt u_eye pos tbn tc =
      vec4 (((List.finRange MAX_LIGHTS).map (fun i =>
        ((amb i).intensity • (amb i).color) * u_material.kA *
          u_material.map_kD tc)).sum) 1 ∧
    ∀ (m2 : Material) (eye2 pos2 : Vec3) (tbn2 : Mat3),
      m2.kA = u_material.kA → m2.map_kD = u_material.map_kD →
      fragmentMain false m2 amb dir pt eye2 pos2 tbn2 tc =
      fragmentMain false u_material amb dir pt u_eye pos tbn tc := by
  have hamb : ∀ (m : Material) (l : AmbientLight),
      shadeAmbientLight m l tc =
        (l.intensity • l.color) * m.kA * m.map_kD tc := by
    intro m l
    by_cases hl : l.intensity = 0
    · simp only [shadeAmbientLight, if_pos hl, hl]
      ext <;> simp
    · simp only [shadeAmbientLight, if_neg hl]
  have key : ∀ (m : Material) (eye p : Vec3) (tb : Mat3),
      fragmentMain false m amb dir pt eye p tb tc =
        vec4 (((List.finRange MAX_LIGHTS).map (fun i =>
          ((amb i).intensity • (amb i).color) * m.kA * m.map_kD tc)).sum) 1 := by
    intro m eye p tb
    have hif : fragmentMain false m amb dir pt eye p tb tc =
        vec4 ((List.finRange MAX_LIGHTS).foldl
          (fun acc i =>
            acc + shadeAmbientLight m (amb i) tc
                + shadeDirectionalLight m (dir i)
                    (fragmentNormal m tb tc) eye p tc
                + shadePointLight m (pt i)
                    (fragmentNormal m tb tc) eye p tc)
          0) 1 := rfl
    have hfun : (fun (acc : Vec3) (i : Fin MAX_LIGHTS) =>
        acc + shadeAmbientLight m (amb i) tc
            + shadeDirectionalLight m (dir i) (fragmentNormal m tb tc) eye p tc
            + shadePointLight m (pt i) (fragmentNormal m tb tc) eye p tc) =
        fun acc i =>
          acc + ((amb i).intensity • (amb i).color) * m.kA * m.map_kD tc := by
      funext acc i
      rw [hamb m (amb i),
        show shadeDirectionalLight m (dir i) (fragmentNormal m tb tc) eye p tc = 0 by
          simp [shadeDirectionalLight, hdir i],
        show shadePointLight m (pt i) (fragmentNormal m tb tc) eye p tc = 0 by
          simp [shadePointLight, hpt i],
        Vec3.add_zero, Vec3.add_zero]
    rw [hif, hfun, foldl_add_eq_sum, Vec3.zero_add]
  refine ⟨by rw [hamb u_material la], key u_material u_eye pos tbn, ?_⟩
  intro m2 eye2 pos2 tbn2 hkA hkD
  rw [key m2 eye2 pos2 tbn2, key u_material u_eye pos tbn, hkA, hkD]

/-- C5 witness: the ambient-only equalities instantiated with one concrete
ambient light of intensity 2 and all directional and point lights disabled
by zero intensity. -/
theorem ambient_only_scene_witness :
    ((⟨⟨1, 1, 1⟩, 2⟩ : AmbientLight).intensity ≠ 0 ∧
      (∀ i : Fin MAX_LIGHTS,
        ((fun _ => ⟨⟨0, 0, 0⟩, ⟨1, 1, 1⟩, 0⟩ :
          Fin MAX_LIGHTS → DirectionalLight) i).intensity = 0) ∧
      (∀ i : Fin MAX_LIGHTS,
        ((fun _ => ⟨⟨0, 0, 0⟩, ⟨1, 1, 1⟩, 0⟩ :
          Fin MAX_LIGHTS → PointLight) i).intensity = 0)) ∧
    shadeAmbientLight sampleMaterial ⟨⟨1, 1, 1⟩, 2⟩ ⟨0, 0⟩ =
      ((2 : ℝ) • (⟨1, 1, 1⟩ : Vec3)) * sampleMaterial.kA *
        sampleMaterial.map_kD ⟨0, 0⟩ := by
  refine ⟨⟨by norm_num, fun i => rfl, fun i => rfl⟩, ?_⟩
  exact (ambient_only_scene sampleMaterial ⟨⟨1, 1, 1⟩, 2⟩
    (fun _ => ⟨⟨1, 1, 1⟩, 2⟩) (fun _ => ⟨⟨0, 0, 0⟩, ⟨1, 1, 1⟩, 0⟩)
    (fun _ => ⟨⟨0, 0, 0⟩, ⟨1, 1, 1⟩, 0⟩) ⟨0, 0, 10⟩ ⟨0, 0, 0⟩
    (Mat3.mk ⟨1, 0, 0⟩ ⟨0, 1, 0⟩ ⟨0, 0, 1⟩) ⟨0, 0⟩
    (by norm_num) (fun i => rfl) (fun i => rfl)).1

/-- C6: with the debug flag on, the fragment output is exactly
vec4(world_normal, 1) with the raw (not rescaled) normal components, no
light accumulation occurs, and the output is identical for any two
configurations of the lights, eye, world position, and of every material
field other than the normal map. -/
theorem debug_normals_bypass (m1 m2 : Material)
    (amb1 amb2 : Fin MAX_LIGHTS → AmbientLight)
    (dir1 dir2 : Fin MAX_LIGHTS → DirectionalLight)
    (pt1 pt2 : Fin MAX_LIGHTS → PointLight)
    (eye1 eye2 pos1 pos2 : Vec3) (tbn : Mat3) (tc : Vec2)
    (h : m1.map_norm = m2.map_norm) :
    fragmentMain true m1 amb1 dir1 pt1 eye1 pos1 tbn tc =
      vec4 (fragmentNormal m1 tbn tc) 1 ∧
    fragmentMain true m1 amb1 dir1 pt1 eye1 pos1 tbn tc =
      fragmentMain true m2 amb2 dir2 pt2 eye2 pos2 tbn tc := by
  refine ⟨rfl, ?_⟩
  show vec4 (fragmentNormal m1 tbn tc) 1 = vec4 (fragmentNormal m2 tbn tc) 1
  rw [fragmentNormal, fragmentNormal, h]

/-- C6 witness: two materials sharing a normal map but with different
reflectances, and two entirely different nonzero light configurations,
produce the same debug output. -/
theorem debug_normals_bypass_witness :
    (sampleMaterial.map_norm =
      (⟨⟨0, 0, 0⟩, ⟨0, 0, 0⟩, ⟨0, 0, 0⟩, 7,
        constSampler ⟨0, 0, 0⟩, constSampler ⟨0, 0, 0⟩,
        constSampler ⟨1/2, 1/2, 1⟩⟩ : Material).map_norm) ∧
    fragmentMain true sampleMaterial (fun _ => ⟨⟨1, 1, 1⟩, 3⟩)
        (fun _ => ⟨⟨0, 0, -1⟩, ⟨1, 1, 1⟩, 2⟩)
        (fun _ => ⟨⟨0, 0, 5⟩, ⟨1, 1, 1⟩, 1⟩)
        ⟨0, 0, 10⟩ ⟨0, 0, 0⟩ (Mat3.mk ⟨1, 0, 0⟩ ⟨0, 1, 0⟩ ⟨0, 0, 1⟩) ⟨0, 0⟩ =
      fragmentMain true
        ⟨⟨0, 0, 0⟩, ⟨0, 0, 0⟩, ⟨0, 0, 0⟩, 7,
         constSampler ⟨0, 0, 0⟩, constSampler ⟨0, 0, 0⟩,
         constSampler ⟨1/2, 1/2, 1⟩⟩
        (fun _ => ⟨⟨2, 2, 2⟩, 9⟩) (fun _ => ⟨⟨1, 0, 0⟩, ⟨2, 2, 2⟩, 9⟩)
        (fun _ => ⟨⟨1, 1, 1⟩, ⟨2, 2, 2⟩, 9⟩)
        ⟨5, 5, 5⟩ ⟨1, 2, 3⟩ (Mat3.mk ⟨1, 0, 0⟩ ⟨0, 1, 0⟩ ⟨0, 0, 1⟩) ⟨0, 0⟩ :=
  ⟨rfl,
   (debug_normals_bypass sampleMaterial
     ⟨⟨0, 0, 0⟩, ⟨0, 0, 0⟩, ⟨0, 0, 0⟩, 7,
      constSampler ⟨0, 0, 0⟩, constSampler ⟨0, 0, 0⟩,
      constSampler ⟨1/2, 1/2, 1⟩⟩
     (fun _ => ⟨⟨1, 1, 1⟩, 3⟩) (fun _ => ⟨⟨2, 2, 2⟩, 9⟩)
     (fun _ => ⟨⟨0, 0, -1⟩, ⟨1, 1, 1⟩, 2⟩) (fun _ => ⟨⟨1, 0, 0⟩, ⟨2, 2, 2⟩, 9⟩)
     (fun _ => ⟨⟨0, 0, 5⟩, ⟨1, 1, 1⟩, 1⟩) (fun _ => ⟨⟨1, 1, 1⟩, ⟨2, 2, 2⟩, 9⟩)
     ⟨0, 0, 10⟩ ⟨5, 5, 5⟩ ⟨0, 0, 0⟩ ⟨1, 2, 3⟩
     (Mat3.mk ⟨1, 0, 0⟩ ⟨0, 1, 0⟩ ⟨0, 0, 1⟩) ⟨0, 0⟩ rfl).2⟩

/-- C8: the vertex stage outputs clip-space position
`projection · view · model · (position, 1)`, world-space position
`(model · (position, 1)).xyz`, and passes the texture coordinate through
unmodified. -/
theorem vertex_transform_outputs (u_m u_v u_p : Mat4)
    (a_position a_normal a_tangent : Vec3) (a_texture_coord : Vec2) :
    (vertexMain u_m u_v u_p a_position a_normal a_tangent
        a_texture_coord).gl_Position =
      (u_p.comp (u_v.comp u_m)).mulVec (vec4 a_position 1) ∧
    (vertexMain u_m u_v u_p a_position a_normal a_tangent
        a_texture_coord).o_vertex_position_world =
      (u_m.mulVec (vec4 a_position 1)).xyz ∧
    (vertexMain u_m u_v u_p a_position a_normal a_tangent
        a_texture_coord).tex_coords = a_texture_coord := by
  refine ⟨?_, rfl, rfl⟩
  show u_p.mulVec (u_v.mulVec (u_m.mulVec (vec4 a_position 1))) = _
  rw [Mat4.comp_mulVec, Mat4.comp_mulVec]

/-- C9: the TBN matrix of the vertex stage is built by the exact step
sequence T = normalize(model · (tangent, 0)).xyz, N = normalize(model ·
(normal, 0)).xyz, T2 = normalize(T - (T·N) N) (the Gram-Schmidt step),
B = N × T2, output = transpose of the matrix with columns (T2, B, N);
moreover, whenever the transformed directions stay directions (w stays 0,
as under every affine model matrix), the transformed normal is nonzero,
and the Gram-Schmidt input is nonzero (so T2 is well-defined), the
re-orthogonalized tangent satisfies T2 · N = 0. -/
theorem tbn_construction (u_m u_v u_p : Mat4)
    (a_position a_normal a_tangent : Vec3) (a_texture_coord : Vec2) :
    (vertexMain u_m u_v u_p a_position a_normal a_tangent
        a_texture_coord).tbn =
      (Mat3.mk
        (gramSchmidt ((normalize4 (u_m.mulVec (vec4 a_tangent 0))).xyz)
          ((normalize4 (u_m.mulVec (vec4 a_normal 0))).xyz))
        (cross ((normalize4 (u_m.mulVec (vec4 a_normal 0))).xyz)
          (gramSchmidt ((normalize4 (u_m.mulVec (vec4 a_tangent 0))).xyz)
            ((normalize4 (u_m.mulVec (vec4 a_normal 0))).xyz)))
        ((normalize4 (u_m.mulVec (vec4 a_normal 0))).xyz)).transpose ∧
    ((u_m.mulVec (vec4 a_tangent 0)).w = 0 →
     (u_m.mulVec (vec4 a_normal 0)).w = 0 →
     u_m.mulVec (vec4 a_normal 0) ≠ 0 →
     (normalize4 (u_m.mulVec (vec4 a_tangent 0))).xyz -
       dot ((normalize4 (u_m.mulVec (vec4 a_tangent 0))).xyz)
           ((normalize4 (u_m.mulVec (vec4 a_normal 0))).xyz) •
         ((normalize4 (u_m.mulVec (vec4 a_normal 0))).xyz) ≠ 0 →
     dot (gramSchmidt ((normalize4 (u_m.mulVec (vec4 a_tangent 0))).xyz)
            ((normalize4 (u_m.mulVec (vec4 a_normal 0))).xyz))
         ((normalize4 (u_m.mulVec (vec4 a_normal 0))).xyz) = 0) := by
  refine ⟨rfl, ?_⟩
  intro _ hw hnz _
  set v : Vec4 := u_m.mulVec (vec4 a_normal 0) with hv
  set T : Vec3 := (normalize4 (u_m.mulVec (vec4 a_tangent 0))).xyz with hT
  set N : Vec3 := (normalize4 v).xyz with hN
  have hvs : 0 < dot4 v v := by
    have hnn : (0 : ℝ) ≤ dot4 v v := by
      simp only [dot4]
      nlinarith [mul_self_nonneg v.x, mul_self_nonneg v.y,
        mul_self_nonneg v.z, mul_self_nonneg v.w]
    rcases hnn.lt_or_eq with h | h
    · exact h
    · exfalso
      apply hnz
      have h0 : dot4 v v = 0 := h.symm
      simp only [dot4] at h0
      have hx : v.x = 0 := mul_self_eq_zero.mp (by
        nlinarith [mul_self_nonneg v.y, mul_self_nonneg v.z, mul_self_nonneg v.w])
      have hy : v.y = 0 := mul_self_eq_zero.mp (by
        nlinarith [mul_self_nonneg v.x, mul_self_nonneg v.z, mul_self_nonneg v.w])
      have hz : v.z = 0 := mul_self_eq_zero.mp (by
        nlinarith [mul_self_nonneg v.x, mul_self_nonneg v.y, mul_self_nonneg v.w])
      have hw0 : v.w = 0 := mul_self_eq_zero.mp (by
        nlinarith [mul_self_nonneg v.x, mul_self_nonneg v.y, mul_self_nonneg v.z])
      ext <;> simp [hx, hy, hz, hw0]
  have hNN : dot N N = 1 := by
    have hsp : Real.sqrt (dot4 v v) ≠ 0 :=
      ne_of_gt (Real.sqrt_pos.mpr hvs)
    have hsq : Real.sqrt (dot4 v v) * Real.sqrt (dot4 v v) = dot4 v v :=
      Real.mul_self_sqrt hvs.le
    have hexp : v.x * v.x + v.y * v.y + v.z * v.z = dot4 v v := by
      simp [dot4, hw]
    have hNd : dot N N =
        (Real.sqrt (dot4 v v))⁻¹ * (Real.sqrt (dot4 v v))⁻¹ *
          (v.x * v.x + v.y * v.y + v.z * v.z) := by
      simp only [hN, normalize4, length4, Vec4.xyz, dot, Vec4.smul_x4,
        Vec4.smul_y4, Vec4.smul_z4]
      ring
    rw [hNd, hexp, ← hsq]
    field_simp
  have hWN : dot (T - dot T N • N) N = 0 := by
    rw [dot_sub_left, dot_smul_left, hNN, mul_one, sub_self]
  rw [gramSchmidt, dot_normalize_left, hWN, mul_zero]

/-- C9 witness: the construction equality and the orthogonality of the
re-orthogonalized tangent against the normal, at the identity model matrix
with tangent (1, 0, 0) and normal (0, 1, 0). -/
theorem tbn_construction_witness :
    ((mat4id.mulVec (vec4 ⟨1, 0, 0⟩ 0)).w = 0 ∧
     (mat4id.mulVec (vec4 ⟨0, 1, 0⟩ 0)).w = 0 ∧
     mat4id.mulVec (vec4 ⟨0, 1, 0⟩ 0) ≠ 0 ∧
     (normalize4 (mat4id.mulVec (vec4 ⟨1, 0, 0⟩ 0))).xyz -
       dot ((normalize4 (mat4id.mulVec (vec4 ⟨1, 0, 0⟩ 0))).xyz)
           ((normalize4 (mat4id.mulVec (vec4 ⟨0, 1, 0⟩ 0))).xyz) •
         ((normalize4 (mat4id.mulVec (vec4 ⟨0, 1, 0⟩ 0))).xyz) ≠ 0) ∧
    dot (gramSchmidt ((normalize4 (mat4id.mulVec (vec4 ⟨1, 0, 0⟩ 0))).xyz)
           ((normalize4 (mat4id.mulVec (vec4 ⟨0, 1, 0⟩ 0))).xyz))
        ((normalize4 (mat4id.mulVec (vec4 ⟨0, 1, 0⟩ 0))).xyz) = 0 := by
  have h1 : (mat4id.mulVec (vec4 (⟨1, 0, 0⟩ : Vec3) 0)).w = 0 := by
    simp [mat4id, Mat4.mulVec, vec4]
  have h2 : (mat4id.mulVec (vec4 (⟨0, 1, 0⟩ : Vec3) 0)).w = 0 := by
    simp [mat4id, Mat4.mulVec, vec4]
  have h3 : mat4id.mulVec (vec4 (⟨0, 1, 0⟩ : Vec3) 0) ≠ 0 := by
    intro h
    have hy := congrArg Vec4.y h
    norm_num [mat4id, Mat4.mulVec, vec4] at hy
  have h4 : (normalize4 (mat4id.mulVec (vec4 (⟨1, 0, 0⟩ : Vec3) 0))).xyz -
      dot ((normalize4 (mat4id.mulVec (vec4 (⟨1, 0, 0⟩ : Vec3) 0))).xyz)
          ((normalize4 (mat4id.mulVec (vec4 (⟨0, 1, 0⟩ : Vec3) 0))).xyz) •
        ((normalize4 (mat4id.mulVec (vec4 (⟨0, 1, 0⟩ : Vec3) 0))).xyz) ≠ 0 := by
    intro h
    have hx := congrArg Vec3.x h
    norm_num [mat4id, Mat4.mulVec, vec4, normalize4, length4, dot4,
      Vec4.xyz, dot, Real.sqrt_one] at hx
  exact ⟨⟨h1, h2, h3, h4⟩,
    (tbn_construction mat4id mat4id mat4id ⟨0, 0, 0⟩ ⟨0, 1, 0⟩ ⟨1, 0, 0⟩
      ⟨0, 0⟩).2 h1 h2 h3 h4⟩

/-- C1 counterexample: at the identity model matrix with tangent (0,1,0)
and normal (1,0,0) the vertex stage constructs the orthonormal frame
T2 = (0,1,0), B = (0,0,1), N = (1,0,0) and stores the transposed matrix;
multiplying the stored TBN matrix by the tangent-space sample n = (1,0,0)
yields (0,0,1), not n.x·T2 + n.y·B + n.z·N = (0,1,0). -/
theorem tbn_transpose_counterexample :
    (vertexMain mat4id mat4id mat4id ⟨0, 0, 0⟩ ⟨1, 0, 0⟩ ⟨0, 1, 0⟩
        ⟨0, 0⟩).tbn =
      (Mat3.mk ⟨0, 1, 0⟩ ⟨0, 0, 1⟩ ⟨1, 0, 0⟩).transpose ∧
    orthonormalFrame ⟨0, 1, 0⟩ ⟨0, 0, 1⟩ ⟨1, 0, 0⟩ ∧
    (vertexMain mat4id mat4id mat4id ⟨0, 0, 0⟩ ⟨1, 0, 0⟩ ⟨0, 1, 0⟩
        ⟨0, 0⟩).tbn.mulVec ⟨1, 0, 0⟩ ≠
      (1 : ℝ) • (⟨0, 1, 0⟩ : Vec3) + (0 : ℝ) • (⟨0, 0, 1⟩ : Vec3) +
        (0 : ℝ) • (⟨1, 0, 0⟩ : Vec3) := by
  have hstep : (vertexMain mat4id mat4id mat4id ⟨0, 0, 0⟩ ⟨1, 0, 0⟩
      ⟨0, 1, 0⟩ ⟨0, 0⟩).tbn =
      (Mat3.mk
        (gramSchmidt ((normalize4 (mat4id.mulVec (vec4 ⟨0, 1, 0⟩ 0))).xyz)
          ((normalize4 (mat4id.mulVec (vec4 ⟨1, 0, 0⟩ 0))).xyz))
        (cross ((normalize4 (mat4id.mulVec (vec4 ⟨1, 0, 0⟩ 0))).xyz)
          (gramSchmidt ((normalize4 (mat4id.mulVec (vec4 ⟨0, 1, 0⟩ 0))).xyz)
            ((normalize4 (mat4id.mulVec (vec4 ⟨1, 0, 0⟩ 0))).xyz)))
        ((normalize4 (mat4id.mulVec (vec4 ⟨1, 0, 0⟩ 0))).xyz)).transpose := rfl
  have hTq : (normalize4 (mat4id.mulVec (vec4 (⟨0, 1, 0⟩ : Vec3) 0))).xyz =
      (⟨0, 1, 0⟩ : Vec3) := by
    norm_num [mat4id, Mat4.mulVec, vec4, normalize4, length4, dot4, Vec4.xyz]
  have hNq : (normalize4 (mat4id.mulVec (vec4 (⟨1, 0, 0⟩ : Vec3) 0))).xyz =
      (⟨1, 0, 0⟩ : Vec3) := by
    norm_num [mat4id, Mat4.mulVec, vec4, normalize4, length4, dot4, Vec4.xyz]
  have hgs : gramSchmidt (⟨0, 1, 0⟩ : Vec3) (⟨1, 0, 0⟩ : Vec3) =
      (⟨0, 1, 0⟩ : Vec3) := by
    ext <;> norm_num [gramSchmidt, normalize, length, dot]
  have hcr : cross (⟨1, 0, 0⟩ : Vec3) (⟨0, 1, 0⟩ : Vec3) =
      (⟨0, 0, 1⟩ : Vec3) := by
    norm_num [cross]
  have htbn : (vertexMain mat4id mat4id mat4id ⟨0, 0, 0⟩ ⟨1, 0, 0⟩
      ⟨0, 1, 0⟩ ⟨0, 0⟩).tbn =
      (Mat3.mk ⟨0, 1, 0⟩ ⟨0, 0, 1⟩ ⟨1, 0, 0⟩).transpose := by
    rw [hstep, hTq, hNq, hgs, hcr]
  refine ⟨htbn, by norm_num [orthonormalFrame, dot], ?_⟩
  rw [htbn]
  intro h
  have hy := congrArg Vec3.y h
  norm_num [Mat3.transpose, Mat3.mulVec] at hy

/-- C1 amended: for an orthonormal frame (T, B, N) the stored (transposed)
TBN matrix is the inverse of the tangent-to-world rotation: it maps the
world-space vector n.x·T + n.y·B + n.z·N back to the tangent-space sample
n, while the world-space vector n.x·T + n.y·B + n.z·N itself is produced
by the untransposed matrix with columns (T, B, N). -/
theorem tbn_transpose_inverse (T B N n : Vec3) (h : orthonormalFrame T B N) :
    (Mat3.mk T B N).transpose.mulVec (n.x • T + n.y • B + n.z • N) = n ∧
    (Mat3.mk T B N).mulVec n = n.x • T + n.y • B + n.z • N := by
  obtain ⟨hTT, hBB, hNN, hTB, hTN, hBN⟩ := h
  simp only [dot] at hTT hBB hNN hTB hTN hBN
  refine ⟨?_, rfl⟩
  ext
  · simp only [Mat3.transpose, Mat3.mulVec, Vec3.add_x, Vec3.add_y,
      Vec3.add_z, Vec3.smul_x, Vec3.smul_y, Vec3.smul_z]
    linear_combination n.x * hTT + n.y * hTB + n.z * hTN
  · simp only [Mat3.transpose, Mat3.mulVec, Vec3.add_x, Vec3.add_y,
      Vec3.add_z, Vec3.smul_x, Vec3.smul_y, Vec3.smul_z]
    linear_combination n.x * hTB + n.y * hBB + n.z * hBN
  · simp only [Mat3.transpose, Mat3.mulVec, Vec3.add_x, Vec3.add_y,
      Vec3.add_z, Vec3.smul_x, Vec3.smul_y, Vec3.smul_z]
    linear_combination n.x * hTN + n.y * hBN + n.z * hNN

/-- C1 witness: the amended statement at the concrete orthonormal frame
T = (0,1,0), B = (0,0,1), N = (1,0,0) and sample n = (1,2,3). -/
theorem tbn_transpose_inverse_witness :
    orthonormalFrame ⟨0, 1, 0⟩ ⟨0, 0, 1⟩ ⟨1, 0, 0⟩ ∧
    ((Mat3.mk ⟨0, 1, 0⟩ ⟨0, 0, 1⟩ ⟨1, 0, 0⟩).transpose.mulVec
        ((1 : ℝ) • (⟨0, 1, 0⟩ : Vec3) + (2 : ℝ) • (⟨0, 0, 1⟩ : Vec3) +
          (3 : ℝ) • (⟨1, 0, 0⟩ : Vec3)) = ⟨1, 2, 3⟩ ∧
      (Mat3.mk ⟨0, 1, 0⟩ ⟨0, 0, 1⟩ ⟨1, 0, 0⟩).mulVec ⟨1, 2, 3⟩ =
        (1 : ℝ) • (⟨0, 1, 0⟩ : Vec3) + (2 : ℝ) • (⟨0, 0, 1⟩ : Vec3) +
          (3 : ℝ) • (⟨1, 0, 0⟩ : Vec3)) :=
  ⟨by norm_num [orthonormalFrame, dot],
   tbn_transpose_inverse ⟨0, 1, 0⟩ ⟨0, 0, 1⟩ ⟨1, 0, 0⟩ ⟨1, 2, 3⟩
     (by norm_num [orthonormalFrame, dot])⟩

end Shader

end
